import Mathlib

/-!
Verification of the background-task coordination pattern and the Haystack
entrypoint described by this repository.

The repository ships a notebook (`asynchronous_shopping_assistant_langgraph.ipynb`)
whose entrypoint script `async_example_langgraph_browser_tool.py` is referenced
but not included; the notebook only quotes fragments (`add_async_task`,
`complete_async_task`, `_run_browser_task`).  The coordinator below is therefore
modelled from the specification's design of the Background Task Coordinator.
The Haystack `agent_invocation` entrypoint is embedded from the complete code
listing in `03-integrations/agentic-frameworks/haystack-ai/README.md`.
-/

namespace AsyncTasks

/-- Modelled from the spec: task status `pending|running|completed|failed`
(spec section 3, Data Model). -/
inductive TaskStatus where
  | pending
  | running
  | completed
  | failed
deriving DecidableEq

/-- Modelled from the spec: a terminal state is `completed` or `failed`;
no further transitions are permitted (spec glossary). -/
def TaskStatus.isTerminal : TaskStatus → Bool
  | TaskStatus.completed => true
  | TaskStatus.failed => true
  | TaskStatus.pending => false
  | TaskStatus.running => false

/-- Modelled from the spec: a Task has an identifier (opaque; modelled as a
natural number), a status, a creation timestamp, an optional result payload and
an optional error detail (spec section 3). -/
structure Task where
  id : Nat
  description : String
  status : TaskStatus
  createdAt : Nat
  result : Option String
  error : Option String
deriving DecidableEq

/-- Modelled from the spec: the TaskRegistry maps task identifiers to Tasks;
`nextId` is the allocator for fresh identifiers and `clock` the source of
creation timestamps (spec section 3). -/
structure TaskRegistry where
  nextId : Nat
  clock : Nat
  tasks : List (Nat × Task)
deriving DecidableEq

def TaskRegistry.empty : TaskRegistry := ⟨0, 0, []⟩

/-- Find the entry for a task identifier in the registry's association list. -/
def findEntry : List (Nat × Task) → Nat → Option Task
  | [], _ => none
  | (k, t) :: rest, tid => if k = tid then some t else findEntry rest tid

/-- Current snapshot of the task stored under `tid`, if any. -/
def lookupTask (reg : TaskRegistry) (tid : Nat) : Option Task :=
  findEntry reg.tasks tid

/-- In-place update of the entry stored under `tid` (keys are preserved). -/
def updateEntry (ts : List (Nat × Task)) (tid : Nat) (t : Task) :
    List (Nat × Task) :=
  ts.map (fun p => if p.1 = tid then (tid, t) else p)

/-- Replace the registry's association list, keeping allocator and clock. -/
def TaskRegistry.withTasks (reg : TaskRegistry) (ts : List (Nat × Task)) :
    TaskRegistry :=
  { reg with tasks := ts }

/-- Modelled from the spec: the internal creation step of `start` — allocate a
fresh identifier and append a `pending` task (append-only creation). -/
def TaskRegistry.register (reg : TaskRegistry) (description : String) :
    Nat × TaskRegistry :=
  (reg.nextId,
   { nextId := reg.nextId + 1
     clock := reg.clock + 1
     tasks := (reg.nextId,
               ⟨reg.nextId, description, TaskStatus.pending, reg.clock,
                none, none⟩) :: reg.tasks })

/-- In-place status update of the task stored under `tid` (no-op when absent). -/
def TaskRegistry.setStatus (reg : TaskRegistry) (tid : Nat)
    (st : TaskStatus) : TaskRegistry :=
  match lookupTask reg tid with
  | none => reg
  | some t => reg.withTasks (updateEntry reg.tasks tid { t with status := st })

/-- Modelled from the spec: `start(description) -> task_id` allocates a new
identifier, registers status `pending→running`, and hands the caller the
handle immediately; the background work is not an input of `start`, so the
returned handle cannot depend on how long the work takes (spec section 4.1). -/
def TaskRegistry.start (reg : TaskRegistry) (description : String) :
    Nat × TaskRegistry :=
  ((reg.register description).1,
   (reg.register description).2.setStatus (reg.register description).1
     TaskStatus.running)

/-- Modelled from the spec: `run_in_background(task_id, work)` — the work is a
computation that either succeeds with a result or raises an error, modelled as
`Except`.  On success the result is stored and the task transitions to
`completed`; on raised failure the error is captured and the task transitions
to `failed`.  The operation is a total function: no exception propagates to
the caller.  Terminal tasks are left untouched (at most one terminal
transition). -/
def TaskRegistry.runInBackground (reg : TaskRegistry) (tid : Nat)
    (work : Except String String) : TaskRegistry :=
  match lookupTask reg tid with
  | none => reg
  | some t =>
    if t.status.isTerminal then reg
    else
      match work with
      | Except.ok r =>
        reg.withTasks (updateEntry reg.tasks tid
          { t with status := TaskStatus.completed, result := some r })
      | Except.error e =>
        reg.withTasks (updateEntry reg.tasks tid
          { t with status := TaskStatus.failed, error := some e })

/-- Modelled from the spec: `complete(task_id) -> bool` marks the externally
observed completion point and reports whether the transition succeeded;
guarded for idempotency — a second call finds the task terminal and does
nothing (spec section 4.1 and design notes). -/
def TaskRegistry.complete (reg : TaskRegistry) (tid : Nat) :
    Bool × TaskRegistry :=
  match lookupTask reg tid with
  | none => (false, reg)
  | some t =>
    if t.status.isTerminal then (false, reg)
    else
      (true,
       reg.withTasks (updateEntry reg.tasks tid
         { t with status := TaskStatus.completed }))

/-- Modelled from the spec: the two error kinds of the coordinator boundary —
`TaskNotFound` (accessor called with unknown identifier) and `TaskFailed`
(background work raised; captured on the Task, not propagated) (spec
section 7). -/
inductive CoordError where
  | TaskNotFound
  | TaskFailed
deriving DecidableEq

/-- Modelled from the spec: `get_result(task_id) -> Task` returns the current
snapshot, or fails with `TaskNotFound` for an unknown identifier. -/
def TaskRegistry.getResult (reg : TaskRegistry) (tid : Nat) :
    Except CoordError Task :=
  match lookupTask reg tid with
  | none => Except.error CoordError.TaskNotFound
  | some t => Except.ok t

/-- Registry well-formedness: task identifiers are unique, every stored
identifier is below the allocator, non-terminal tasks carry no result and no
error, and each task records the identifier it is stored under. -/
@[reducible] def Invariant (reg : TaskRegistry) : Prop :=
  (reg.tasks.map Prod.fst).Nodup ∧
  (∀ p ∈ reg.tasks, p.1 < reg.nextId) ∧
  (∀ p ∈ reg.tasks, p.2.status.isTerminal = false →
     p.2.result = none ∧ p.2.error = none) ∧
  (∀ p ∈ reg.tasks, p.2.id = p.1)

/-- Registries reachable from the empty registry by coordinator operations. -/
inductive Reachable : TaskRegistry → Prop where
  | empty : Reachable TaskRegistry.empty
  | start (reg : TaskRegistry) (d : String) :
      Reachable reg → Reachable (reg.start d).2
  | runBg (reg : TaskRegistry) (tid : Nat) (w : Except String String) :
      Reachable reg → Reachable (reg.runInBackground tid w)
  | complete (reg : TaskRegistry) (tid : Nat) :
      Reachable reg → Reachable (reg.complete tid).2

theorem findEntry_cons (k : Nat) (u : Task) (rest : List (Nat × Task))
    (tid : Nat) :
    findEntry ((k, u) :: rest) tid =
      if k = tid then some u else findEntry rest tid := rfl

theorem updateEntry_cons (k : Nat) (u : Task) (rest : List (Nat × Task))
    (tid : Nat) (t : Task) :
    updateEntry ((k, u) :: rest) tid t =
      (if k = tid then (tid, t) else (k, u)) :: updateEntry rest tid t := rfl

theorem findEntry_updateEntry_self (ts : List (Nat × Task)) (tid : Nat)
    (t0 t : Task) (h : findEntry ts tid = some t0) :
    findEntry (updateEntry ts tid t) tid = some t := by
  induction ts with
  | nil => simp [findEntry] at h
  | cons p rest ih =>
    obtain ⟨k, u⟩ := p
    rw [updateEntry_cons]
    by_cases hk : k = tid
    · rw [if_pos hk, findEntry_cons, if_pos rfl]
    · rw [if_neg hk, findEntry_cons, if_neg hk]
      rw [findEntry_cons, if_neg hk] at h
      exact ih h

theorem findEntry_updateEntry_ne (ts : List (Nat × Task)) (tid tid' : Nat)
    (t : Task) (h : tid' ≠ tid) :
    findEntry (updateEntry ts tid t) tid' = findEntry ts tid' := by
  induction ts with
  | nil => rfl
  | cons p rest ih =>
    obtain ⟨k, u⟩ := p
    rw [updateEntry_cons]
    by_cases hk : k = tid
    · have hk' : k ≠ tid' := fun hc => h (hc ▸ hk)
      rw [if_pos hk, findEntry_cons, if_neg (fun hc => h hc.symm),
        findEntry_cons, if_neg hk']
      exact ih
    · rw [if_neg hk]
      by_cases hk' : k = tid'
      · rw [findEntry_cons, if_pos hk', findEntry_cons, if_pos hk']
      · rw [findEntry_cons, if_neg hk', findEntry_cons, if_neg hk']
        exact ih

theorem updateEntry_map_fst (ts : List (Nat × Task)) (tid : Nat) (t : Task) :
    (updateEntry ts tid t).map Prod.fst = ts.map Prod.fst := by
  induction ts with
  | nil => rfl
  | cons p rest ih =>
    obtain ⟨k, u⟩ := p
    rw [updateEntry_cons]
    by_cases hk : k = tid
    · rw [if_pos hk]
      simp [ih, hk]
    · rw [if_neg hk]
      simp [ih]

theorem mem_updateEntry (ts : List (Nat × Task)) (tid : Nat) (t : Task)
    (p : Nat × Task) (hp : p ∈ updateEntry ts tid t) :
    p ∈ ts ∨ (p = (tid, t) ∧ ∃ u, (tid, u) ∈ ts) := by
  simp only [updateEntry, List.mem_map] at hp
  obtain ⟨q, hq, hfq⟩ := hp
  by_cases hk : q.1 = tid
  · right
    rw [if_pos hk] at hfq
    refine ⟨hfq.symm, q.2, ?_⟩
    have hq' : (q.1, q.2) ∈ ts := by simpa using hq
    rw [hk] at hq'
    exact hq'
  · left
    rw [if_neg hk] at hfq
    exact hfq ▸ hq

theorem findEntry_some_mem (ts : List (Nat × Task)) (tid : Nat) (t : Task)
    (h : findEntry ts tid = some t) : (tid, t) ∈ ts := by
  induction ts with
  | nil => simp [findEntry] at h
  | cons p rest ih =>
    obtain ⟨k, u⟩ := p
    rw [findEntry_cons] at h
    by_cases hk : k = tid
    · rw [if_pos hk] at h
      obtain rfl : u = t := Option.some.inj h
      subst hk
      simp
    · rw [if_neg hk] at h
      exact List.mem_cons_of_mem _ (ih h)

theorem findEntry_eq_none (ts : List (Nat × Task)) (tid : Nat)
    (h : ∀ p ∈ ts, p.1 ≠ tid) : findEntry ts tid = none := by
  induction ts with
  | nil => rfl
  | cons p rest ih =>
    obtain ⟨k, u⟩ := p
    rw [findEntry_cons, if_neg (h (k, u) (by simp))]
    exact ih fun q hq => h q (List.mem_cons_of_mem _ hq)

theorem start_fst (reg : TaskRegistry) (d : String) :
    (reg.start d).1 = reg.nextId := rfl

theorem lookupTask_register_self (reg : TaskRegistry) (d : String) :
    lookupTask (reg.register d).2 reg.nextId =
      some ⟨reg.nextId, d, TaskStatus.pending, reg.clock, none, none⟩ := by
  simp [TaskRegistry.register, lookupTask, findEntry_cons]

theorem start_snd (reg : TaskRegistry) (d : String) :
    (reg.start d).2 =
      { nextId := reg.nextId + 1
        clock := reg.clock + 1
        tasks := (reg.nextId,
                  ⟨reg.nextId, d, TaskStatus.running, reg.clock, none, none⟩) ::
                 updateEntry reg.tasks reg.nextId
                   ⟨reg.nextId, d, TaskStatus.running, reg.clock, none, none⟩ } := by
  simp [TaskRegistry.start, TaskRegistry.register, TaskRegistry.setStatus,
    TaskRegistry.withTasks, lookupTask, findEntry_cons, updateEntry_cons]

theorem lookupTask_start_self (reg : TaskRegistry) (d : String) :
    lookupTask (reg.start d).2 reg.nextId =
      some ⟨reg.nextId, d, TaskStatus.running, reg.clock, none, none⟩ := by
  rw [start_snd]
  simp [lookupTask, findEntry_cons]

theorem lookupTask_start_ne (reg : TaskRegistry) (d : String) (tid' : Nat)
    (h : tid' ≠ reg.nextId) :
    lookupTask (reg.start d).2 tid' = lookupTask reg tid' := by
  have hne : reg.nextId ≠ tid' := fun hc => h hc.symm
  rw [start_snd]
  show findEntry _ tid' = _
  rw [findEntry_cons, if_neg hne]
  exact findEntry_updateEntry_ne reg.tasks reg.nextId tid' _ h

theorem start_tasks_map_fst (reg : TaskRegistry) (d : String) :
    ((reg.start d).2.tasks.map Prod.fst) =
      reg.nextId :: reg.tasks.map Prod.fst := by
  rw [start_snd]
  simp [updateEntry_map_fst]

theorem runInBackground_none (reg : TaskRegistry) (tid : Nat)
    (w : Except String String) (h : lookupTask reg tid = none) :
    reg.runInBackground tid w = reg := by
  simp [TaskRegistry.runInBackground, h]

theorem runInBackground_terminal (reg : TaskRegistry) (tid : Nat)
    (w : Except String String) (t : Task) (hl : lookupTask reg tid = some t)
    (ht : t.status.isTerminal = true) :
    reg.runInBackground tid w = reg := by
  simp [TaskRegistry.runInBackground, hl, ht]

theorem runInBackground_ok (reg : TaskRegistry) (tid : Nat) (t : Task)
    (r : String) (hl : lookupTask reg tid = some t)
    (hnt : t.status.isTerminal = false) :
    reg.runInBackground tid (Except.ok r) =
      reg.withTasks (updateEntry reg.tasks tid
        { t with status := TaskStatus.completed, result := some r }) := by
  simp [TaskRegistry.runInBackground, hl, hnt]

theorem runInBackground_err (reg : TaskRegistry) (tid : Nat) (t : Task)
    (e : String) (hl : lookupTask reg tid = some t)
    (hnt : t.status.isTerminal = false) :
    reg.runInBackground tid (Except.error e) =
      reg.withTasks (updateEntry reg.tasks tid
        { t with status := TaskStatus.failed, error := some e }) := by
  simp [TaskRegistry.runInBackground, hl, hnt]

theorem lookupTask_runInBackground_ne (reg : TaskRegistry) (tid tid' : Nat)
    (w : Except String String) (h : tid' ≠ tid) :
    lookupTask (reg.runInBackground tid w) tid' = lookupTask reg tid' := by
  cases hl : lookupTask reg tid with
  | none => rw [runInBackground_none reg tid w hl]
  | some t =>
    cases ht : t.status.isTerminal with
    | true => rw [runInBackground_terminal reg tid w t hl ht]
    | false =>
      cases w with
      | ok r =>
        rw [runInBackground_ok reg tid t r hl ht]
        exact findEntry_updateEntry_ne reg.tasks tid tid' _ h
      | error e =>
        rw [runInBackground_err reg tid t e hl ht]
        exact findEntry_updateEntry_ne reg.tasks tid tid' _ h

theorem complete_none (reg : TaskRegistry) (tid : Nat)
    (h : lookupTask reg tid = none) : reg.complete tid = (false, reg) := by
  simp [TaskRegistry.complete, h]

theorem complete_terminal (reg : TaskRegistry) (tid : Nat) (t : Task)
    (hl : lookupTask reg tid = some t) (ht : t.status.isTerminal = true) :
    reg.complete tid = (false, reg) := by
  simp [TaskRegistry.complete, hl, ht]

theorem complete_live (reg : TaskRegistry) (tid : Nat) (t : Task)
    (hl : lookupTask reg tid = some t) (hnt : t.status.isTerminal = false) :
    reg.complete tid =
      (true, reg.withTasks (updateEntry reg.tasks tid
        { t with status := TaskStatus.completed })) := by
  simp [TaskRegistry.complete, hl, hnt]

theorem lookupTask_complete_ne (reg : TaskRegistry) (tid tid' : Nat)
    (h : tid' ≠ tid) :
    lookupTask (reg.complete tid).2 tid' = lookupTask reg tid' := by
  cases hl : lookupTask reg tid with
  | none => rw [complete_none reg tid hl]
  | some t =>
    cases ht : t.status.isTerminal with
    | true => rw [complete_terminal reg tid t hl ht]
    | false =>
      rw [complete_live reg tid t hl ht]
      exact findEntry_updateEntry_ne reg.tasks tid tid' _ h

theorem updateEntry_id_of_fresh (ts : List (Nat × Task)) (tid : Nat) (t : Task)
    (h : ∀ p ∈ ts, p.1 ≠ tid) : updateEntry ts tid t = ts := by
  induction ts with
  | nil => rfl
  | cons p rest ih =>
    obtain ⟨k, u⟩ := p
    rw [updateEntry_cons, if_neg (h (k, u) (by simp))]
    rw [ih fun q hq => h q (List.mem_cons_of_mem _ hq)]

theorem start_snd_of_invariant (reg : TaskRegistry) (d : String)
    (h : Invariant reg) :
    (reg.start d).2 =
      { nextId := reg.nextId + 1
        clock := reg.clock + 1
        tasks := (reg.nextId,
                  ⟨reg.nextId, d, TaskStatus.running, reg.clock, none, none⟩) ::
                 reg.tasks } := by
  rw [start_snd,
    updateEntry_id_of_fresh _ _ _ fun p hp => Nat.ne_of_lt (h.2.1 p hp)]

theorem invariant_empty : Invariant TaskRegistry.empty := by
  refine ⟨?_, ?_, ?_, ?_⟩ <;> simp [TaskRegistry.empty]

theorem invariant_updateEntry (reg : TaskRegistry) (tid : Nat) (t' : Task)
    (h : Invariant reg)
    (hid : t'.id = tid)
    (hres : t'.status.isTerminal = false → t'.result = none ∧ t'.error = none) :
    Invariant (reg.withTasks (updateEntry reg.tasks tid t')) := by
  obtain ⟨hnd, hlt, hne, hids⟩ := h
  refine ⟨?_, ?_, ?_, ?_⟩
  · simpa [TaskRegistry.withTasks, updateEntry_map_fst] using hnd
  · intro p hp
    rcases mem_updateEntry reg.tasks tid t' p hp with hmem | ⟨rfl, u, hu⟩
    · exact hlt p hmem
    · exact hlt (tid, u) hu
  · intro p hp hterm
    rcases mem_updateEntry reg.tasks tid t' p hp with hmem | ⟨rfl, u, hu⟩
    · exact hne p hmem hterm
    · exact hres hterm
  · intro p hp
    rcases mem_updateEntry reg.tasks tid t' p hp with hmem | ⟨rfl, u, hu⟩
    · exact hids p hmem
    · exact hid

theorem invariant_start (reg : TaskRegistry) (d : String) (h : Invariant reg) :
    Invariant (reg.start d).2 := by
  rw [start_snd_of_invariant reg d h]
  obtain ⟨hnd, hlt, hne, hids⟩ := h
  refine ⟨?_, ?_, ?_, ?_⟩
  · rw [List.map_cons]
    refine List.nodup_cons.mpr ⟨?_, hnd⟩
    intro hmem
    obtain ⟨p, hp, hfst⟩ := List.mem_map.mp hmem
    exact absurd (hlt p hp) (by simp [hfst])
  · intro p hp
    rcases List.mem_cons.mp hp with rfl | hp'
    · exact Nat.lt_succ_self _
    · exact Nat.lt_succ_of_lt (hlt p hp')
  · intro p hp hterm
    rcases List.mem_cons.mp hp with rfl | hp'
    · exact ⟨rfl, rfl⟩
    · exact hne p hp' hterm
  · intro p hp
    rcases List.mem_cons.mp hp with rfl | hp'
    · rfl
    · exact hids p hp'

theorem invariant_runInBackground (reg : TaskRegistry) (tid : Nat)
    (w : Except String String) (h : Invariant reg) :
    Invariant (reg.runInBackground tid w) := by
  cases hl : lookupTask reg tid with
  | none => rw [runInBackground_none reg tid w hl]; exact h
  | some t =>
    cases ht : t.status.isTerminal with
    | true => rw [runInBackground_terminal reg tid w t hl ht]; exact h
    | false =>
      have hid : t.id = tid := h.2.2.2 (tid, t) (findEntry_some_mem _ _ _ hl)
      cases w with
      | ok r =>
        rw [runInBackground_ok reg tid t r hl ht]
        exact invariant_updateEntry reg tid _ h hid
          (by simp [TaskStatus.isTerminal])
      | error e =>
        rw [runInBackground_err reg tid t e hl ht]
        exact invariant_updateEntry reg tid _ h hid
          (by simp [TaskStatus.isTerminal])

theorem invariant_complete (reg : TaskRegistry) (tid : Nat)
    (h : Invariant reg) : Invariant (reg.complete tid).2 := by
  cases hl : lookupTask reg tid with
  | none => rw [complete_none reg tid hl]; exact h
  | some t =>
    cases ht : t.status.isTerminal with
    | true => rw [complete_terminal reg tid t hl ht]; exact h
    | false =>
      have hid : t.id = tid := h.2.2.2 (tid, t) (findEntry_some_mem _ _ _ hl)
      rw [complete_live reg tid t hl ht]
      exact invariant_updateEntry reg tid _ h hid
        (by simp [TaskStatus.isTerminal])

theorem reachable_invariant (reg : TaskRegistry) (h : Reachable reg) :
    Invariant reg := by
  induction h with
  | empty => exact invariant_empty
  | start reg d _ ih => exact invariant_start reg d ih
  | runBg reg tid w _ ih => exact invariant_runInBackground reg tid w ih
  | complete reg tid _ ih => exact invariant_complete reg tid ih

theorem lookupTask_start_frame (reg : TaskRegistry) (d : String) (tid : Nat)
    (t : Task) (h : Invariant reg) (hl : lookupTask reg tid = some t) :
    lookupTask (reg.start d).2 tid = some t := by
  have hne : tid ≠ reg.nextId := by
    intro hc
    exact absurd (h.2.1 (tid, t) (findEntry_some_mem _ _ _ hl)) (by simp [hc])
  rw [lookupTask_start_ne reg d tid hne]
  exact hl

theorem lookupTask_runInBackground_frame_terminal (reg : TaskRegistry)
    (tid' : Nat) (w : Except String String) (tid : Nat) (t : Task)
    (hl : lookupTask reg tid = some t) (ht : t.status.isTerminal = true) :
    lookupTask (reg.runInBackground tid' w) tid = some t := by
  by_cases hc : tid = tid'
  · subst hc
    rw [runInBackground_terminal reg tid w t hl ht]
    exact hl
  · rw [lookupTask_runInBackground_ne reg tid' tid w hc]
    exact hl

theorem lookupTask_complete_frame_terminal (reg : TaskRegistry)
    (tid' tid : Nat) (t : Task)
    (hl : lookupTask reg tid = some t) (ht : t.status.isTerminal = true) :
    lookupTask (reg.complete tid').2 tid = some t := by
  by_cases hc : tid = tid'
  · subst hc
    rw [complete_terminal reg tid t hl ht]
    exact hl
  · rw [lookupTask_complete_ne reg tid' tid hc]
    exact hl

theorem runInBackground_map_fst (reg : TaskRegistry) (tid : Nat)
    (w : Except String String) :
    (reg.runInBackground tid w).tasks.map Prod.fst =
      reg.tasks.map Prod.fst := by
  cases hl : lookupTask reg tid with
  | none => rw [runInBackground_none reg tid w hl]
  | some t =>
    cases ht : t.status.isTerminal with
    | true => rw [runInBackground_terminal reg tid w t hl ht]
    | false =>
      cases w with
      | ok r =>
        rw [runInBackground_ok reg tid t r hl ht]
        exact updateEntry_map_fst reg.tasks tid _
      | error e =>
        rw [runInBackground_err reg tid t e hl ht]
        exact updateEntry_map_fst reg.tasks tid _

theorem complete_map_fst (reg : TaskRegistry) (tid : Nat) :
    ((reg.complete tid).2).tasks.map Prod.fst = reg.tasks.map Prod.fst := by
  cases hl : lookupTask reg tid with
  | none => rw [complete_none reg tid hl]
  | some t =>
    cases ht : t.status.isTerminal with
    | true => rw [complete_terminal reg tid t hl ht]
    | false =>
      rw [complete_live reg tid t hl ht]
      exact updateEntry_map_fst reg.tasks tid _

/-- The registry obtained from the empty registry by starting one task
("search laptops"); used to exercise the theorems at concrete inputs. -/
def sampleStarted : TaskRegistry := (TaskRegistry.empty.start "search laptops").2

/-- The running snapshot stored in `sampleStarted` under identifier `0`. -/
def sampleRunning : Task :=
  ⟨0, "search laptops", TaskStatus.running, 0, none, none⟩

/-- `sampleStarted` after its background work succeeded with result "r". -/
def sampleDone : TaskRegistry :=
  sampleStarted.runInBackground 0 (Except.ok "r")

/-- The completed snapshot stored in `sampleDone` under identifier `0`. -/
def sampleCompleted : Task :=
  ⟨0, "search laptops", TaskStatus.completed, 0, some "r", none⟩

end AsyncTasks

namespace Haystack

/-- A chat message, as constructed by `ChatMessage.from_user` in
`haystack_github_agent.py`. -/
structure ChatMessage where
  role : String
  text : String
deriving DecidableEq

def ChatMessage.from_user (s : String) : ChatMessage := ⟨"user", s⟩

/-- The fallback used by `payload.get("prompt", ...)` in the entrypoint. -/
def noPromptFallback : String :=
  "No prompt found in input, please guide customer to create a json payload with prompt key"

/-- `dict.get` semantics over the JSON payload object (string-valued keys). -/
def lookupKey : List (String × String) → String → Option String
  | [], _ => none
  | (k, v) :: rest, key => if k = key then some v else lookupKey rest key

/-- Last element of a message list: the `[-1]` indexing of
`result["messages"][-1]`, with `none` modelling the `IndexError` Python
raises on an empty list. -/
def lastMsg : List ChatMessage → Option ChatMessage
  | [] => none
  | [m] => some m
  | _ :: m :: rest => lastMsg (m :: rest)

/-- The `agent_invocation` entrypoint of `haystack_github_agent.py` (README
lines 64-71).  The external Haystack agent `tool_calling_agent.run` is a
parameter `run` producing the result's `messages` list.  The returned
dictionary is `[("result", ...)]`. -/
def agent_invocation (run : List ChatMessage → List ChatMessage)
    (payload : List (String × String)) : Option (List (String × String)) :=
  let prompt := (lookupKey payload "prompt").getD noPromptFallback
  let user_message := ChatMessage.from_user prompt
  match lastMsg (run [user_message]) with
  | some m => some [("result", m.text)]
  | none => none

end Haystack

namespace AsyncTasks

/-- C1: For every task whose background work terminates successfully,
`run_in_background(task_id, work)` performs exactly one terminal transition of
that task, to status `completed`, and the result stored on the task equals the
return value of `work`: starting from a live (non-terminal) task, the
post-state snapshot is `completed` and carries the returned result, and the
task being terminal afterwards, neither a repeated worker run nor a further
`complete` changes the registry again. -/
theorem C1_runInBackground_success (reg : TaskRegistry) (tid : Nat) (t : Task)
    (r : String) (hl : lookupTask reg tid = some t)
    (hnt : t.status.isTerminal = false) :
    lookupTask (reg.runInBackground tid (Except.ok r)) tid =
      some { t with status := TaskStatus.completed, result := some r } ∧
    (∀ w, (reg.runInBackground tid (Except.ok r)).runInBackground tid w =
      reg.runInBackground tid (Except.ok r)) ∧
    ((reg.runInBackground tid (Except.ok r)).complete tid).2 =
      reg.runInBackground tid (Except.ok r) := by
  have hpost : lookupTask (reg.runInBackground tid (Except.ok r)) tid =
      some { t with status := TaskStatus.completed, result := some r } := by
    rw [runInBackground_ok reg tid t r hl hnt]
    exact findEntry_updateEntry_self reg.tasks tid t _ hl
  refine ⟨hpost, ?_, ?_⟩
  · intro w
    exact runInBackground_terminal _ tid w _ hpost rfl
  · rw [complete_terminal _ tid _ hpost rfl]

/-- Witness for C1: the started "search laptops" task, with work returning
"r". -/
theorem C1_runInBackground_success_witness :
    lookupTask sampleStarted 0 = some sampleRunning ∧
    sampleRunning.status.isTerminal = false ∧
    (lookupTask (sampleStarted.runInBackground 0 (Except.ok "r")) 0 =
      some { sampleRunning with status := TaskStatus.completed, result := some "r" } ∧
    (∀ w, (sampleStarted.runInBackground 0 (Except.ok "r")).runInBackground 0 w =
      sampleStarted.runInBackground 0 (Except.ok "r")) ∧
    ((sampleStarted.runInBackground 0 (Except.ok "r")).complete 0).2 =
      sampleStarted.runInBackground 0 (Except.ok "r")) :=
  ⟨rfl, rfl, C1_runInBackground_success sampleStarted 0 sampleRunning "r" rfl rfl⟩

/-- C2: For every task whose background work raises, exactly one terminal
transition to `failed` occurs and the error is captured on the Task record:
from a live task, the post-state snapshot is `failed` carrying the raised
error, and being terminal it is never updated again.  `runInBackground` is a
total function into `TaskRegistry`, so no exception propagates to the caller
of `start` in the model. -/
theorem C2_runInBackground_failure (reg : TaskRegistry) (tid : Nat) (t : Task)
    (e : String) (hl : lookupTask reg tid = some t)
    (hnt : t.status.isTerminal = false) :
    lookupTask (reg.runInBackground tid (Except.error e)) tid =
      some { t with status := TaskStatus.failed, error := some e } ∧
    (∀ w, (reg.runInBackground tid (Except.error e)).runInBackground tid w =
      reg.runInBackground tid (Except.error e)) ∧
    ((reg.runInBackground tid (Except.error e)).complete tid).2 =
      reg.runInBackground tid (Except.error e) := by
  have hpost : lookupTask (reg.runInBackground tid (Except.error e)) tid =
      some { t with status := TaskStatus.failed, error := some e } := by
    rw [runInBackground_err reg tid t e hl hnt]
    exact findEntry_updateEntry_self reg.tasks tid t _ hl
  refine ⟨hpost, ?_, ?_⟩
  · intro w
    exact runInBackground_terminal _ tid w _ hpost rfl
  · rw [complete_terminal _ tid _ hpost rfl]

/-- Witness for C2: the started "search laptops" task, with work raising
"boom". -/
theorem C2_runInBackground_failure_witness :
    lookupTask sampleStarted 0 = some sampleRunning ∧
    sampleRunning.status.isTerminal = false ∧
    (lookupTask (sampleStarted.runInBackground 0 (Except.error "boom")) 0 =
      some { sampleRunning with status := TaskStatus.failed, error := some "boom" } ∧
    (∀ w, (sampleStarted.runInBackground 0
        (Except.error "boom")).runInBackground 0 w =
      sampleStarted.runInBackground 0 (Except.error "boom")) ∧
    ((sampleStarted.runInBackground 0 (Except.error "boom")).complete 0).2 =
      sampleStarted.runInBackground 0 (Except.error "boom")) :=
  ⟨rfl, rfl,
   C2_runInBackground_failure sampleStarted 0 sampleRunning "boom" rfl rfl⟩

/-- C3: `complete(task_id)` is idempotent: a second call on the same task
leaves the registry (hence the stored result) unchanged and applies no side
effect twice, and `complete` returns the boolean saying whether the terminal
transition succeeded (true exactly when the task exists and is not yet
terminal). -/
theorem C3_complete_idempotent (reg : TaskRegistry) (tid : Nat) :
    ((reg.complete tid).2.complete tid).2 = (reg.complete tid).2 ∧
    ((reg.complete tid).2.complete tid).1 = false ∧
    ((reg.complete tid).1 = true ↔
      ∃ t, lookupTask reg tid = some t ∧ t.status.isTerminal = false) := by
  cases hl : lookupTask reg tid with
  | none =>
    have h1 := complete_none reg tid hl
    simp [h1, hl]
  | some t =>
    cases ht : t.status.isTerminal with
    | true =>
      have h1 := complete_terminal reg tid t hl ht
      simp [h1, hl, ht]
    | false =>
      have h1 := complete_live reg tid t hl ht
      have hpost : lookupTask (reg.withTasks (updateEntry reg.tasks tid
          { t with status := TaskStatus.completed })) tid =
          some { t with status := TaskStatus.completed } :=
        findEntry_updateEntry_self reg.tasks tid t _ hl
      have h2 := complete_terminal _ tid _ hpost rfl
      simp [h1, h2, hl, ht]

/-- C4: The registry invariant is preserved by every operation: task
identifiers stay unique (`Nodup` keys, all below the allocator), non-terminal
tasks carry no result or error, and once a task is terminal no operation —
`start`, `run_in_background` or `complete`, on any identifier — changes its
stored snapshot (status, result and error included). -/
theorem C4_registry_invariant (reg : TaskRegistry) (d : String)
    (tid tid' : Nat) (w w' : Except String String) (t : Task)
    (h : Invariant reg)
    (hl : lookupTask reg tid = some t)
    (ht : t.status.isTerminal = true) :
    Invariant (reg.start d).2 ∧
    Invariant (reg.runInBackground tid' w) ∧
    Invariant (reg.complete tid').2 ∧
    lookupTask (reg.start d).2 tid = some t ∧
    lookupTask (reg.runInBackground tid' w') tid = some t ∧
    lookupTask (reg.complete tid').2 tid = some t :=
  ⟨invariant_start reg d h, invariant_runInBackground reg tid' w h,
   invariant_complete reg tid' h,
   lookupTask_start_frame reg d tid t h hl,
   lookupTask_runInBackground_frame_terminal reg tid' w' tid t hl ht,
   lookupTask_complete_frame_terminal reg tid' tid t hl ht⟩

/-- Witness for C4: the registry holding one completed task, probed by a
fresh `start`, a worker run and a `complete` on identifier 1. -/
theorem C4_registry_invariant_witness :
    Invariant sampleDone ∧
    lookupTask sampleDone 0 = some sampleCompleted ∧
    sampleCompleted.status.isTerminal = true ∧
    (Invariant (sampleDone.start "y").2 ∧
    Invariant (sampleDone.runInBackground 1 (Except.ok "a")) ∧
    Invariant (sampleDone.complete 1).2 ∧
    lookupTask (sampleDone.start "y").2 0 = some sampleCompleted ∧
    lookupTask (sampleDone.runInBackground 1 (Except.error "b")) 0 =
      some sampleCompleted ∧
    lookupTask (sampleDone.complete 1).2 0 = some sampleCompleted) :=
  ⟨by decide, rfl, rfl,
   C4_registry_invariant sampleDone "y" 0 1 (Except.ok "a") (Except.error "b")
     sampleCompleted (by decide) rfl rfl⟩

/-- C5: `get_result` called with an identifier not present in the registry
fails with `TaskNotFound` instead of returning a task snapshot. -/
theorem C5_getResult_not_found (reg : TaskRegistry) (tid : Nat)
    (h : lookupTask reg tid = none) :
    reg.getResult tid = Except.error CoordError.TaskNotFound := by
  simp [TaskRegistry.getResult, h]

/-- Witness for C5: identifier 42 was never created in the empty registry. -/
theorem C5_getResult_not_found_witness :
    lookupTask TaskRegistry.empty 42 = none ∧
    TaskRegistry.empty.getResult 42 =
      Except.error CoordError.TaskNotFound :=
  ⟨rfl, C5_getResult_not_found TaskRegistry.empty 42 rfl⟩

/-- C6: In every registry reachable by coordinator operations, a `get_result`
snapshot taken before the task's terminal transition (i.e. while its status is
not terminal) shows status `pending` or `running` and carries no result
payload and no error detail. -/
theorem C6_getResult_nonterminal (reg : TaskRegistry) (tid : Nat) (t : Task)
    (hr : Reachable reg) (hg : reg.getResult tid = Except.ok t)
    (hnt : t.status.isTerminal = false) :
    (t.status = TaskStatus.pending ∨ t.status = TaskStatus.running) ∧
    t.result = none ∧ t.error = none := by
  have hinv := reachable_invariant reg hr
  have hl : lookupTask reg tid = some t := by
    cases hlk : lookupTask reg tid with
    | none => simp [TaskRegistry.getResult, hlk] at hg
    | some u =>
      simp only [TaskRegistry.getResult, hlk, Except.ok.injEq] at hg
      rw [hg]
  have hmem := findEntry_some_mem reg.tasks tid t hl
  refine ⟨?_, hinv.2.2.1 (tid, t) hmem hnt⟩
  cases hst : t.status
  · exact Or.inl rfl
  · exact Or.inr rfl
  · rw [hst] at hnt
    simp [TaskStatus.isTerminal] at hnt
  · rw [hst] at hnt
    simp [TaskStatus.isTerminal] at hnt

/-- Witness for C6: the freshly started "search laptops" task is still
`running`, with no result and no error. -/
theorem C6_getResult_nonterminal_witness :
    Reachable sampleStarted ∧
    sampleStarted.getResult 0 = Except.ok sampleRunning ∧
    sampleRunning.status.isTerminal = false ∧
    ((sampleRunning.status = TaskStatus.pending ∨
      sampleRunning.status = TaskStatus.running) ∧
     sampleRunning.result = none ∧ sampleRunning.error = none) :=
  ⟨Reachable.start TaskRegistry.empty "search laptops" Reachable.empty,
   rfl, rfl,
   C6_getResult_nonterminal sampleStarted 0 sampleRunning
     (Reachable.start TaskRegistry.empty "search laptops" Reachable.empty)
     rfl rfl⟩

/-- C7: `start(description)` allocates a fresh identifier absent from the
registry, registers the task by the internal `pending` creation step followed
by the `running` transition, and returns the handle without invoking the
work: the work is not an argument of `start`, so the handle is available
regardless of how long the work runs; a `get_result` interleaved before the
worker's transition returns `running`, and after the work finishes
`get_result` returns `completed` with the work's payload. -/
theorem C7_start_nonblocking (reg : TaskRegistry) (d : String) (r : String)
    (h : Invariant reg) :
    lookupTask reg (reg.start d).1 = none ∧
    lookupTask (reg.register d).2 (reg.start d).1 =
      some ⟨reg.nextId, d, TaskStatus.pending, reg.clock, none, none⟩ ∧
    (reg.start d).2.getResult (reg.start d).1 =
      Except.ok ⟨reg.nextId, d, TaskStatus.running, reg.clock, none, none⟩ ∧
    ((reg.start d).2.runInBackground (reg.start d).1 (Except.ok r)).getResult
        (reg.start d).1 =
      Except.ok ⟨reg.nextId, d, TaskStatus.completed, reg.clock, some r, none⟩ := by
  refine ⟨?_, lookupTask_register_self reg d, ?_, ?_⟩
  · exact findEntry_eq_none reg.tasks reg.nextId
      fun p hp => Nat.ne_of_lt (h.2.1 p hp)
  · show (reg.start d).2.getResult reg.nextId = _
    rw [TaskRegistry.getResult, lookupTask_start_self reg d]
  · have h3 : lookupTask
        ((reg.start d).2.runInBackground reg.nextId (Except.ok r))
        reg.nextId =
        some ⟨reg.nextId, d, TaskStatus.completed, reg.clock, some r, none⟩ := by
      rw [runInBackground_ok _ _ _ r (lookupTask_start_self reg d) rfl]
      exact findEntry_updateEntry_self _ _ _ _ (lookupTask_start_self reg d)
    show ((reg.start d).2.runInBackground reg.nextId (Except.ok r)).getResult
        reg.nextId = _
    rw [TaskRegistry.getResult, h3]

/-- Witness for C7: starting "search laptops" on the empty registry, with
work returning "r". -/
theorem C7_start_nonblocking_witness :
    Invariant TaskRegistry.empty ∧
    (lookupTask TaskRegistry.empty (TaskRegistry.empty.start "search laptops").1 = none ∧
    lookupTask (TaskRegistry.empty.register "search laptops").2
        (TaskRegistry.empty.start "search laptops").1 =
      some ⟨0, "search laptops", TaskStatus.pending, 0, none, none⟩ ∧
    (TaskRegistry.empty.start "search laptops").2.getResult
        (TaskRegistry.empty.start "search laptops").1 =
      Except.ok ⟨0, "search laptops", TaskStatus.running, 0, none, none⟩ ∧
    ((TaskRegistry.empty.start "search laptops").2.runInBackground
        (TaskRegistry.empty.start "search laptops").1
        (Except.ok "r")).getResult
        (TaskRegistry.empty.start "search laptops").1 =
      Except.ok ⟨0, "search laptops", TaskStatus.completed, 0, some "r", none⟩) :=
  ⟨by decide,
   C7_start_nonblocking TaskRegistry.empty "search laptops" "r" (by decide)⟩

/-- C9: The TaskRegistry only grows: `start` adds exactly one entry (its fresh
identifier is consed onto the unchanged key list), `run_in_background` and
`complete` preserve the key list exactly (no entry is ever removed), and every
operation targeting another identifier leaves a given identifier's entry
unchanged.  `get_result` is a pure accessor and returns a snapshot without
producing a new registry at all. -/
theorem C9_registry_append_only (reg : TaskRegistry) (d : String)
    (tid tid' : Nat) (w : Except String String)
    (h1 : tid' ≠ tid) (h2 : tid' ≠ (reg.start d).1) :
    ((reg.start d).2.tasks.map Prod.fst) =
      (reg.start d).1 :: reg.tasks.map Prod.fst ∧
    (reg.runInBackground tid w).tasks.map Prod.fst = reg.tasks.map Prod.fst ∧
    ((reg.complete tid).2).tasks.map Prod.fst = reg.tasks.map Prod.fst ∧
    lookupTask (reg.start d).2 tid' = lookupTask reg tid' ∧
    lookupTask (reg.runInBackground tid w) tid' = lookupTask reg tid' ∧
    lookupTask (reg.complete tid).2 tid' = lookupTask reg tid' :=
  ⟨start_tasks_map_fst reg d, runInBackground_map_fst reg tid w,
   complete_map_fst reg tid,
   lookupTask_start_ne reg d tid' h2,
   lookupTask_runInBackground_ne reg tid tid' w h1,
   lookupTask_complete_ne reg tid tid' h1⟩

/-- Witness for C9: the one-task registry, probed at the untouched
identifier 5. -/
theorem C9_registry_append_only_witness :
    (5 : Nat) ≠ 0 ∧
    (5 : Nat) ≠ (sampleStarted.start "y").1 ∧
    (((sampleStarted.start "y").2.tasks.map Prod.fst) =
      (sampleStarted.start "y").1 :: sampleStarted.tasks.map Prod.fst ∧
    (sampleStarted.runInBackground 0 (Except.ok "a")).tasks.map Prod.fst =
      sampleStarted.tasks.map Prod.fst ∧
    ((sampleStarted.complete 0).2).tasks.map Prod.fst =
      sampleStarted.tasks.map Prod.fst ∧
    lookupTask (sampleStarted.start "y").2 5 = lookupTask sampleStarted 5 ∧
    lookupTask (sampleStarted.runInBackground 0 (Except.ok "a")) 5 =
      lookupTask sampleStarted 5 ∧
    lookupTask (sampleStarted.complete 0).2 5 = lookupTask sampleStarted 5) :=
  ⟨by decide, by decide,
   C9_registry_append_only sampleStarted "y" 0 5 (Except.ok "a")
     (by decide) (by decide)⟩

end AsyncTasks

namespace Haystack

theorem lastMsg_ne_nil (ms : List ChatMessage) (h : ms ≠ []) :
    ∃ m, lastMsg ms = some m := by
  induction ms with
  | nil => exact absurd rfl h
  | cons a rest ih =>
    cases rest with
    | nil => exact ⟨a, rfl⟩
    | cons b rest2 => simpa [lastMsg] using ih (by simp)

/-- C10: For every payload dictionary, the Haystack `agent_invocation`
entrypoint returns a dictionary carrying a `result` key (provided the external
agent answers with at least one message), and a missing `prompt` key never
raises: the entrypoint behaves exactly as if the payload had carried the fixed
fallback string as its prompt, which becomes the user message. -/
theorem C10_agent_invocation_result_key
    (run : List ChatMessage → List ChatMessage)
    (payload : List (String × String))
    (h : run [ChatMessage.from_user
        ((lookupKey payload "prompt").getD noPromptFallback)] ≠ []) :
    (∃ r, agent_invocation run payload = some [("result", r)]) ∧
    (lookupKey payload "prompt" = none →
      agent_invocation run payload =
        agent_invocation run [("prompt", noPromptFallback)]) := by
  obtain ⟨m, hm⟩ := lastMsg_ne_nil _ h
  constructor
  · exact ⟨m.text, by simp [agent_invocation, hm]⟩
  · intro hnone
    simp [agent_invocation, hnone, lookupKey]

/-- Witness for C10: the identity agent run on the empty payload, which lacks
the `prompt` key. -/
theorem C10_agent_invocation_result_key_witness :
    (fun ms : List ChatMessage => ms)
        [ChatMessage.from_user
          ((lookupKey [] "prompt").getD noPromptFallback)] ≠ [] ∧
    ((∃ r, agent_invocation (fun ms => ms) [] = some [("result", r)]) ∧
     (lookupKey [] "prompt" = none →
       agent_invocation (fun ms => ms) [] =
         agent_invocation (fun ms => ms) [("prompt", noPromptFallback)])) :=
  ⟨by simp,
   C10_agent_invocation_result_key (fun ms => ms) [] (by simp)⟩

end Haystack
